import Mathlib

/-!
Verification of the lamp-library directory-change detection and throttled
state-synchronization engine: a shallow embedding of the snapshot reconciler
(`throttled_library_updater._compare_library_data`), the persistent JSON store
(`json_dict.JSONDict`), the throttle scheduler (`JSONDict._schedule_save`),
and the filesystem-event classifier (`file_watcher.MangaFileWatcher`),
together with proofs of the specified properties.
-/

namespace Lamp

/-- A collection record as it appears as a value of the library mapping
(spec §3 CollectionRecord, the JSON objects produced by the store).
`cbz_files` is the list of archive file names, `total_chapters` the stored
chapter count. -/
structure CollectionRecord where
  path : String
  created_at : String
  last_updated : String
  cbz_files : List String
  total_chapters : Nat
deriving Repr, DecidableEq

/-- A library mapping (a Python dict from collection id to record), modelled
as an association list; Python dict keys are unique, which is assumed via
`List.lookup` semantics (first binding wins). -/
abbrev LibraryData := List (String × CollectionRecord)

/-- `set(data.keys())` — the key set of the mapping. -/
def keys (d : LibraryData) : Finset String :=
  (d.map Prod.fst).toFinset

/-- `set(data.get(name, \x7b\x7d).get("cbz_files", []))` — the cbz-file set
of a record, empty when the key is absent. -/
def cbzSet (d : LibraryData) (name : String) : Finset String :=
  match List.lookup name d with
  | some r => r.cbz_files.toFinset
  | none => ∅

/-- The result dictionary of `ThrottledLibraryUpdater._compare_library_data`.
The two Python dicts mapping a manga name to its removed/new cbz-file list
are modelled as their lookup functions: a key absent from the dict maps to
`none`; the per-key file lists (built from Python sets) are modelled as
finite sets. -/
structure LibraryDiff where
  removed_manga : Finset String
  removed_cbz_files : String → Option (Finset String)
  new_manga : Finset String
  new_cbz_files : String → Option (Finset String)

/-- `ThrottledLibraryUpdater._compare_library_data(old_data, new_data)`:
removed manga are `old - new`, new manga are `new - old`; removed manga
contribute their full cbz list to `removed_cbz_files` (and new manga theirs
to `new_cbz_files`); manga present in both contribute the set difference of
their cbz sets, but only when that difference is nonempty (the source only
creates a dict entry inside `if removed_files:` / `if added_files:`). -/
def compareLibraryData (old_data new_data : LibraryData) : LibraryDiff :=
  let old_manga_names := keys old_data
  let new_manga_names := keys new_data
  let removed_manga := old_manga_names \ new_manga_names
  let new_manga := new_manga_names \ old_manga_names
  let existing_manga := old_manga_names ∩ new_manga_names
  { removed_manga := removed_manga
    removed_cbz_files := fun name =>
      if name ∈ removed_manga then some (cbzSet old_data name)
      else if name ∈ existing_manga ∧ (cbzSet old_data name \ cbzSet new_data name).Nonempty then
        some (cbzSet old_data name \ cbzSet new_data name)
      else none
    new_manga := new_manga
    new_cbz_files := fun name =>
      if name ∈ new_manga then some (cbzSet new_data name)
      else if name ∈ existing_manga ∧ (cbzSet new_data name \ cbzSet old_data name).Nonempty then
        some (cbzSet new_data name \ cbzSet old_data name)
      else none }

/-- The chapters reported as added for `name` by a diff (no entry reads as
the empty set). -/
def addedChapters (d : LibraryDiff) (name : String) : Finset String :=
  (d.new_cbz_files name).getD ∅

/-- The chapters reported as removed for `name` by a diff. -/
def removedChapters (d : LibraryDiff) (name : String) : Finset String :=
  (d.removed_cbz_files name).getD ∅

/-- The two files `JSONDict._save_to_file` touches: the `.tmp` sibling and
the target file. `none` means the file does not exist; `some c` that it
holds content `c` (possibly a partially written prefix, for the temp file). -/
structure FsState where
  temp : Option String
  target : Option String
deriving Repr, DecidableEq

/-- `temp_path = f"\x7bself.file_path\x7d.tmp"` from `_save_to_file`. -/
def tempPath (file_path : String) : String :=
  file_path ++ ".tmp"

/-- Serialized form of one record, standing for its `json.dump` rendering. -/
def serializeRecord (r : CollectionRecord) : String :=
  "\x7b \x22path\x22: \x22" ++ r.path ++ "\x22, \x22created_at\x22: \x22" ++
    r.created_at ++ "\x22, \x22last_updated\x22: \x22" ++ r.last_updated ++
    "\x22, \x22cbz_files\x22: [" ++
    String.intercalate ", " (r.cbz_files.map fun f => "\x22" ++ f ++ "\x22") ++
    "], \x22total_chapters\x22: " ++ toString r.total_chapters ++ " \x7d"

/-- Serialized form of the whole mapping: the complete content
`json.dump(self._data, f)` writes. -/
def serializeLib (d : LibraryData) : String :=
  "\x7b " ++
    String.intercalate ", "
      (d.map fun kv => "\x22" ++ kv.1 ++ "\x22: " ++ serializeRecord kv.2) ++
    " \x7d"

/-- All prefixes of a string: the possible observable contents of a file
while that string is being written to it. -/
def writePrefixes (s : String) : List String :=
  (List.range (s.length + 1)).map fun k => String.mk (s.data.take k)

/-- The sequence of filesystem states a successful run of
`JSONDict._save_to_file` passes through: the initial state, the states while
the full serialization is written to the `.tmp` file (the target untouched),
and the state after `os.rename(temp_path, self.file_path)` atomically
replaces the target with the fully written temp file. -/
def saveToFileStates (d : LibraryData) (init : FsState) : List FsState :=
  [init] ++
    (writePrefixes (serializeLib d)).map (fun p => { init with temp := some p }) ++
    [{ temp := none, target := some (serializeLib d) }]

/-- The throttling state of a `JSONDict` (`_last_save_time`,
`_pending_save`) together with the wake time of the armed `delayed_save`
thread and, as history instrumentation for the temporal claim, the list of
times at which `_save_to_file` executed (newest first). Times are in the
same unit as the throttle window `W` (`save_throttle_ms / 1000` in the
source). -/
structure SchedulerState where
  lastSaveTime : Nat
  pendingSave : Bool
  pendingFireTime : Nat
  saves : List Nat
deriving Repr, DecidableEq

/-- The flag updates a successful `_save_to_file` performs at time `t`
(`self._last_save_time = time.time(); self._pending_save = False`), with the
execution recorded in the history. -/
def saveToFileAt (t : Nat) (s : SchedulerState) : SchedulerState :=
  { s with lastSaveTime := t, pendingSave := false, saves := t :: s.saves }

/-- `JSONDict._schedule_save` called at time `t` with window `W`: if
`current_time - self._last_save_time >= W` save immediately; otherwise, if
no save is pending, mark one pending and arm a `delayed_save` thread that
sleeps `delay = W - (current_time - self._last_save_time)`, hence wakes at
`t + (W - (t - lastSaveTime))`; otherwise do nothing. -/
def scheduleSave (W t : Nat) (s : SchedulerState) : SchedulerState :=
  if W ≤ t - s.lastSaveTime then
    saveToFileAt t s
  else if s.pendingSave = false then
    { s with pendingSave := true, pendingFireTime := t + (W - (t - s.lastSaveTime)) }
  else
    s

/-- The body of the `delayed_save` thread after its sleep ends at time `t`:
under the lock, save only if the pending flag is still set. -/
def delayedSaveFire (t : Nat) (s : SchedulerState) : SchedulerState :=
  if s.pendingSave = true then saveToFileAt t s else s

/-- An event in a scheduler run: a mutation calling `_schedule_save` at time
`t`, or the armed `delayed_save` thread waking at time `t`. -/
inductive SchedulerEvent where
  | mutate (t : Nat)
  | fire (t : Nat)
deriving Repr, DecidableEq

/-- Run a sequence of scheduler events from a state. -/
def run (W : Nat) (s : SchedulerState) : List SchedulerEvent → SchedulerState
  | [] => s
  | SchedulerEvent.mutate t :: es => run W (scheduleSave W t s) es
  | SchedulerEvent.fire t :: es => run W (delayedSaveFire t s) es

/-- Well-formed event trace: event times do not precede the last save time,
a mutation while a timer is pending happens before that timer's wake time
(the sleeping thread wakes on schedule), and a fire event is exactly the
pending thread waking at its armed wake time. -/
def wfTrace (W : Nat) (s : SchedulerState) : List SchedulerEvent → Bool
  | [] => true
  | SchedulerEvent.mutate t :: es =>
      decide (s.lastSaveTime ≤ t) &&
      (!s.pendingSave || decide (t < s.pendingFireTime)) &&
      wfTrace W (scheduleSave W t s) es
  | SchedulerEvent.fire t :: es =>
      s.pendingSave && decide (t = s.pendingFireTime) &&
      decide (s.lastSaveTime ≤ t) &&
      wfTrace W (delayedSaveFire t s) es

/-- Scheduler invariant: recorded save times are spaced at least `W` apart,
the newest recorded save is not after `lastSaveTime`, and a pending timer is
armed to fire exactly at `lastSaveTime + W`. -/
def SchedulerInv (W : Nat) (s : SchedulerState) : Prop :=
  List.Chain' (fun a b => b + W ≤ a) s.saves ∧
  s.saves.head?.getD 0 ≤ s.lastSaveTime ∧
  (s.pendingSave = true → s.pendingFireTime = s.lastSaveTime + W)

/-- A filesystem path, modelled as its list of components. `os.path.dirname`
drops the last component, `os.path.basename` is the last component, and the
source's string comparisons of a parent directory against
`self.manga_path` become equality of component lists. -/
abbrev FsPath := List String

/-- `os.path.dirname` on the component representation. -/
def dirname (p : FsPath) : FsPath :=
  p.dropLast

/-- `os.path.basename` on the component representation. -/
def basename (p : FsPath) : String :=
  p.getLast?.getD ""

/-- An entry recorded in `MangaFileWatcher.events_log` by one of the event
handlers, carrying the same details the source logs. -/
inductive WatcherEvent where
  | directoryCreated (path : FsPath) (directoryName : String)
  | fileAdded (path : FsPath) (fileName parentDirectory : String)
  | directoryRenamed (destPath : FsPath) (oldName newName : String) (oldPath : FsPath)
  | directoryDeleted (path : FsPath) (directoryName : String)
  | fileDeleted (path : FsPath) (fileName parentDirectory : String)
deriving Repr, DecidableEq

/-- Events logged at collection (first) level by the watcher. -/
def isCollectionEvent : WatcherEvent → Bool
  | WatcherEvent.directoryCreated _ _ => true
  | WatcherEvent.directoryDeleted _ _ => true
  | WatcherEvent.directoryRenamed _ _ _ _ => true
  | _ => false

/-- Events logged at chapter (second) level by the watcher. -/
def isChapterEvent : WatcherEvent → Bool
  | WatcherEvent.fileAdded _ _ _ => true
  | WatcherEvent.fileDeleted _ _ _ => true
  | _ => false

/-- `MangaFileWatcher.on_created`: a directory is logged only when its
parent directory is the watched root; a file only when the parent of its
parent directory is the watched root; anything else is dropped. -/
def onCreated (manga_path : FsPath) (is_directory : Bool) (src_path : FsPath) :
    Option WatcherEvent :=
  if is_directory then
    if dirname src_path = manga_path then
      some (WatcherEvent.directoryCreated src_path (basename src_path))
    else none
  else
    if dirname (dirname src_path) = manga_path then
      some (WatcherEvent.fileAdded src_path (basename src_path)
        (basename (dirname src_path)))
    else none

/-- `MangaFileWatcher.on_deleted`: same level filtering as `on_created`. -/
def onDeleted (manga_path : FsPath) (is_directory : Bool) (src_path : FsPath) :
    Option WatcherEvent :=
  if is_directory then
    if dirname src_path = manga_path then
      some (WatcherEvent.directoryDeleted src_path (basename src_path))
    else none
  else
    if dirname (dirname src_path) = manga_path then
      some (WatcherEvent.fileDeleted src_path (basename src_path)
        (basename (dirname src_path)))
    else none

/-- `MangaFileWatcher.on_moved`: every directory move is logged as a rename
(the source checks only `event.is_directory`, no comparison against the
watched root); file moves are ignored. -/
def onMoved (manga_path : FsPath) (is_directory : Bool) (src_path dest_path : FsPath) :
    Option WatcherEvent :=
  if is_directory then
    some (WatcherEvent.directoryRenamed dest_path (basename src_path)
      (basename dest_path) src_path)
  else none

/-- The exception classes `open` + `json.load` can raise on an existing
backing file: `json.JSONDecodeError` (syntactically invalid JSON text),
`IOError` (read failure), and `UnicodeDecodeError` (the file's bytes are not
valid UTF-8, raised while decoding before JSON parsing begins —
a `ValueError` that is neither of the other two classes). -/
inductive PyExc where
  | jsonDecodeError
  | ioError
  | unicodeDecodeError
deriving Repr, DecidableEq

/-- Whether an exception class is matched by the source's
`except (json.JSONDecodeError, IOError)` clause: `UnicodeDecodeError` is a
subclass of neither and is not caught. -/
def caughtByLoadHandler : PyExc → Bool
  | PyExc.jsonDecodeError => true
  | PyExc.ioError => true
  | PyExc.unicodeDecodeError => false

/-- The state of the backing file when a `JSONDict` is constructed: missing,
present and parsing to a mapping, or present but making `open`/`json.load`
raise the given exception. -/
inductive BackingFile where
  | absent
  | valid (d : LibraryData)
  | failing (exc : PyExc)
deriving Repr, DecidableEq

/-- How `JSONDict.__init__` / `_load_from_file` completes: with an initial
mapping (plus whether a load failure was reported), or with an exception
escaping the constructor. -/
inductive LoadOutcome where
  | loaded (d : LibraryData) (errorReported : Bool)
  | raised (exc : PyExc)
deriving Repr, DecidableEq

/-- `JSONDict._load_from_file`: `os.path.exists` guards the open; a failure
raised by `open`/`json.load` is caught only when its class is matched by
`except (json.JSONDecodeError, IOError)` — then it is reported and the data
set to the empty dict; an uncaught exception escapes the constructor; an
absent file yields the empty dict. -/
def loadFromFile : BackingFile → LoadOutcome
  | BackingFile.valid d => LoadOutcome.loaded d false
  | BackingFile.absent => LoadOutcome.loaded [] false
  | BackingFile.failing exc =>
      if caughtByLoadHandler exc then LoadOutcome.loaded [] true
      else LoadOutcome.raised exc

/-- Which of the operations attempted by one run of `_save_to_file` succeed:
`os.makedirs`, the open-and-`json.dump` of the temp file, `os.rename`, and
the handler's `os.remove`. -/
structure SaveEnv where
  makedirsOk : Bool
  writeOk : Bool
  renameOk : Bool
  removeOk : Bool
deriving Repr, DecidableEq

/-- How a `_save_to_file` call returns to its caller. -/
inductive FlushOutcome where
  | success
  | handled (exc : String)
  | escaped (exc : String)
deriving Repr, DecidableEq

/-- The `JSONDict` fields relevant to a flush: the in-memory `_data` and the
throttling flags `_last_save_time` / `_pending_save`. -/
structure StoreState where
  data : LibraryData
  lastSaveTime : Nat
  pendingSave : Bool
deriving Repr, DecidableEq

/-- The `except` block of `_save_to_file`: it evaluates
`os.path.exists(temp_path)`. `temp_path` is a Python local assigned only
after `os.makedirs` returns, so when the handler runs with it still unbound
that lookup raises `UnboundLocalError`, which escapes the method; when it is
bound, the temp file is removed if present (where `os.remove` may itself
fail and escape). -/
def saveExceptHandler (exc : String) (tempPathBound removeOk : Bool)
    (fs : FsState) : FlushOutcome × FsState :=
  if tempPathBound = false then
    (FlushOutcome.escaped "UnboundLocalError: temp_path", fs)
  else
    match fs.temp with
    | some _ =>
        if removeOk then (FlushOutcome.handled exc, { fs with temp := none })
        else (FlushOutcome.escaped "OSError: remove failed", fs)
    | none => (FlushOutcome.handled exc, fs)

/-- One run of `JSONDict._save_to_file` at time `t` under environment `env`:
`os.makedirs` (raising before `temp_path` is assigned on failure), then the
write of the full serialization to the temp file, then the atomic rename,
with any exception routed to the `except` block. On success the save time
and pending flag are updated; the in-memory `_data` is never written. -/
def saveToFileRun (env : SaveEnv) (t : Nat) (store : StoreState) (fs : FsState) :
    FlushOutcome × StoreState × FsState :=
  if env.makedirsOk = false then
    let r := saveExceptHandler "OSError: makedirs failed" false env.removeOk fs
    (r.1, store, r.2)
  else if env.writeOk = false then
    let r := saveExceptHandler "IOError: write failed" true env.removeOk fs
    (r.1, store, r.2)
  else
    let fs1 : FsState := { fs with temp := some (serializeLib store.data) }
    if env.renameOk = false then
      let r := saveExceptHandler "OSError: rename failed" true env.removeOk fs1
      (r.1, store, r.2)
    else
      (FlushOutcome.success,
        { store with lastSaveTime := t, pendingSave := false },
        { temp := none, target := some (serializeLib store.data) })

/-- `name.endswith(ext)` on Python strings, as suffix of the character
lists. -/
def endsWithExt (ext name : String) : Bool :=
  List.isSuffixOf ext.data name.data

/-- Insert or replace the binding of `k` in the mapping (a Python
`store[k] = v`). -/
def setKey (store : LibraryData) (k : String) (v : CollectionRecord) : LibraryData :=
  if (List.lookup k store).isSome then
    store.map (fun kv => if kv.1 = k then (k, v) else kv)
  else
    store ++ [(k, v)]

/-- Remove the binding of `k` from the mapping (a Python `del store[k]`,
a no-op when absent). -/
def delKey (store : LibraryData) (k : String) : LibraryData :=
  store.filter (fun kv => kv.1 != k)

/-- Modelled from the spec: the collection-level update procedure (§4.2),
whose implementation is not under src/ (only the spec describes it): given a
collection id, re-derive its record from the directory listing — delete the
record when the directory is gone (`listing = none`); otherwise keep the
entries ending in the recognized archive extension, preserve `created_at`
when the record already existed (setting it to `now` otherwise), update
`last_updated`, and recompute `total_chapters` as the number of chapter
files. -/
def updateCollection (store : LibraryData) (id path : String)
    (listing : Option (List String)) (now : String) : LibraryData :=
  match listing with
  | none => delKey store id
  | some entries =>
      let files := entries.filter (fun name => endsWithExt ".cbz" name)
      let created := match List.lookup id store with
        | some r => r.created_at
        | none => now
      setKey store id
        { path := path, created_at := created, last_updated := now,
          cbz_files := files, total_chapters := files.length }

/-- Modelled from the spec: the collection-rename handling (§4.4), whose
implementation is not under src/: when the old id exists, migrate its record
(new path, updated `last_updated`, key renamed), preserving `created_at`;
otherwise fall back to a fresh collection-level update under the new id. -/
def renameCollection (store : LibraryData) (oldId newId newPath : String)
    (listing : Option (List String)) (now : String) : LibraryData :=
  match List.lookup oldId store with
  | some r =>
      setKey (delKey store oldId) newId
        { r with path := newPath, last_updated := now }
  | none => updateCollection store newId newPath listing now

/-- Modelled from the spec: the classified notifications the Directory
Watcher feeds into the store (§4.4). -/
inductive LibraryNotification where
  | collectionUpdate (id path : String) (listing : Option (List String)) (now : String)
  | collectionDeleted (id : String)
  | collectionRenamed (oldId newId newPath : String)
      (listing : Option (List String)) (now : String)

/-- Modelled from the spec: dispatch of one classified notification to the
store-update procedures (§4.4). -/
def processNotification (store : LibraryData) : LibraryNotification → LibraryData
  | LibraryNotification.collectionUpdate id path listing now =>
      updateCollection store id path listing now
  | LibraryNotification.collectionDeleted id => delKey store id
  | LibraryNotification.collectionRenamed o n p l now =>
      renameCollection store o n p l now

/-- Process a sequence of classified notifications. -/
def processNotifications (store : LibraryData) : List LibraryNotification → LibraryData
  | [] => store
  | n :: ns => processNotifications (processNotification store n) ns

/-- Every record of the mapping has `total_chapters` equal to the number of
its chapter files. -/
def RecordsConsistent (store : LibraryData) : Prop :=
  ∀ kv ∈ store, kv.2.total_chapters = kv.2.cbz_files.length

/-- `MangaFileWatcher._log_event`: append the event, then keep only the last
100 entries (`self.events_log = self.events_log[-100:]`) when the log holds
more than 100. -/
def logEvent {α : Type} (events_log : List α) (e : α) : List α :=
  let log1 := events_log ++ [e]
  if log1.length > 100 then log1.drop (log1.length - 100) else log1

/-- `MangaFileWatcher.get_events(limit)`: `events_log[-limit:]` for a
nonzero limit, a copy of the whole log otherwise. -/
def getEvents {α : Type} (events_log : List α) (limit : Nat) : List α :=
  if limit ≠ 0 then events_log.drop (events_log.length - limit) else events_log

/-- C1: `_compare_library_data(previous, current)` returns exactly the ids
present in previous but not current as removed, the ids present in current
but not previous as added, and, for every id present in both snapshots, the
added (resp. removed) chapters are the set difference of the current (resp.
previous) record's cbz files over the other's. -/
theorem compare_library_data_correct (old_data new_data : LibraryData) (name : String)
    (h1 : name ∈ keys old_data) (h2 : name ∈ keys new_data) :
    (compareLibraryData old_data new_data).removed_manga = keys old_data \ keys new_data ∧
    (compareLibraryData old_data new_data).new_manga = keys new_data \ keys old_data ∧
    addedChapters (compareLibraryData old_data new_data) name =
      cbzSet new_data name \ cbzSet old_data name ∧
    removedChapters (compareLibraryData old_data new_data) name =
      cbzSet old_data name \ cbzSet new_data name := by
  refine ⟨rfl, rfl, ?_, ?_⟩
  · show ((if name ∈ keys new_data \ keys old_data then some (cbzSet new_data name)
      else if name ∈ keys old_data ∩ keys new_data ∧
          (cbzSet new_data name \ cbzSet old_data name).Nonempty then
        some (cbzSet new_data name \ cbzSet old_data name)
      else none).getD ∅) = cbzSet new_data name \ cbzSet old_data name
    rw [if_neg (by simp [h1])]
    by_cases hne : (cbzSet new_data name \ cbzSet old_data name).Nonempty
    · rw [if_pos ⟨Finset.mem_inter.mpr ⟨h1, h2⟩, hne⟩]
      rfl
    · rw [if_neg (by simp [hne])]
      simp [Finset.not_nonempty_iff_eq_empty.mp hne]
  · show ((if name ∈ keys old_data \ keys new_data then some (cbzSet old_data name)
      else if name ∈ keys old_data ∩ keys new_data ∧
          (cbzSet old_data name \ cbzSet new_data name).Nonempty then
        some (cbzSet old_data name \ cbzSet new_data name)
      else none).getD ∅) = cbzSet old_data name \ cbzSet new_data name
    rw [if_neg (by simp [h2])]
    by_cases hne : (cbzSet old_data name \ cbzSet new_data name).Nonempty
    · rw [if_pos ⟨Finset.mem_inter.mpr ⟨h1, h2⟩, hne⟩]
      rfl
    · rw [if_neg (by simp [hne])]
      simp [Finset.not_nonempty_iff_eq_empty.mp hne]

/-- Closed witness for C1 on a concrete pair of snapshots. -/
theorem compare_library_data_correct_witness :
    addedChapters
        (compareLibraryData
          [("Foo", ⟨"r/Foo", "t0", "t0", ["a.cbz"], 1⟩)]
          [("Foo", ⟨"r/Foo", "t0", "t1", ["a.cbz", "b.cbz"], 2⟩)]) "Foo" =
      cbzSet [("Foo", ⟨"r/Foo", "t0", "t1", ["a.cbz", "b.cbz"], 2⟩)] "Foo" \
        cbzSet [("Foo", ⟨"r/Foo", "t0", "t0", ["a.cbz"], 1⟩)] "Foo" :=
  (compare_library_data_correct
    [("Foo", ⟨"r/Foo", "t0", "t0", ["a.cbz"], 1⟩)]
    [("Foo", ⟨"r/Foo", "t0", "t1", ["a.cbz", "b.cbz"], 2⟩)] "Foo"
    (by decide) (by decide)).2.2.1

/-- C2: reconciling a snapshot against itself yields an empty diff: no
removed collections, no added collections, and no chapter entry (hence no
added or removed chapter files) for any id. -/
theorem reconcile_self_empty (S : LibraryData) (name : String) :
    (compareLibraryData S S).removed_manga = ∅ ∧
    (compareLibraryData S S).new_manga = ∅ ∧
    (compareLibraryData S S).removed_cbz_files name = none ∧
    (compareLibraryData S S).new_cbz_files name = none := by
  refine ⟨Finset.sdiff_self _, Finset.sdiff_self _, ?_, ?_⟩ <;>
  · show (if name ∈ keys S \ keys S then _
      else if name ∈ keys S ∩ keys S ∧ (cbzSet S name \ cbzSet S name).Nonempty then _
      else none) = none
    rw [if_neg (by simp), if_neg (by simp)]

/-- `_schedule_save` preserves the scheduler invariant when called at a time
not before the last save. -/
theorem schedulerInv_scheduleSave (W t : Nat) (s : SchedulerState)
    (hlast : s.lastSaveTime ≤ t) (hinv : SchedulerInv W s) :
    SchedulerInv W (scheduleSave W t s) := by
  obtain ⟨hchain, hhead, hpend⟩ := hinv
  unfold scheduleSave
  split_ifs with h1 h2
  · refine ⟨?_, ?_, ?_⟩
    · show List.Chain' _ (t :: s.saves)
      cases hsaves : s.saves with
      | nil => simp
      | cons a l =>
        rw [List.chain'_cons]
        refine ⟨?_, hsaves ▸ hchain⟩
        rw [hsaves] at hhead
        simp only [List.head?_cons, Option.getD_some] at hhead
        omega
    · show (t :: s.saves).head?.getD 0 ≤ t
      simp
    · intro h
      simp [saveToFileAt] at h
  · exact ⟨hchain, hhead, fun _ => by
      show t + (W - (t - s.lastSaveTime)) = s.lastSaveTime + W
      omega⟩
  · exact ⟨hchain, hhead, hpend⟩

/-- The `delayed_save` thread body preserves the scheduler invariant when it
wakes at exactly its armed wake time. -/
theorem schedulerInv_delayedSaveFire (W t : Nat) (s : SchedulerState)
    (hwake : s.pendingSave = true → t = s.pendingFireTime)
    (hinv : SchedulerInv W s) : SchedulerInv W (delayedSaveFire t s) := by
  obtain ⟨hchain, hhead, hpend⟩ := hinv
  unfold delayedSaveFire
  split_ifs with hp
  · have hft : t = s.lastSaveTime + W := by rw [hwake hp, hpend hp]
    refine ⟨?_, ?_, ?_⟩
    · show List.Chain' _ (t :: s.saves)
      cases hsaves : s.saves with
      | nil => simp
      | cons a l =>
        rw [List.chain'_cons]
        refine ⟨?_, hsaves ▸ hchain⟩
        rw [hsaves] at hhead
        simp only [List.head?_cons, Option.getD_some] at hhead
        omega
    · show (t :: s.saves).head?.getD 0 ≤ t
      simp
    · intro h
      simp [saveToFileAt] at h
  · exact ⟨hchain, hhead, hpend⟩

/-- Running a well-formed trace preserves the scheduler invariant. -/
theorem schedulerInv_run (W : Nat) (es : List SchedulerEvent) :
    ∀ s : SchedulerState, SchedulerInv W s → wfTrace W s es = true →
      SchedulerInv W (run W s es) := by
  induction es with
  | nil => exact fun s hinv _ => hinv
  | cons e es ih =>
    intro s hinv hwf
    cases e with
    | mutate t =>
      simp only [wfTrace, Bool.and_eq_true, decide_eq_true_eq] at hwf
      exact ih _ (schedulerInv_scheduleSave W t s hwf.1.1 hinv) hwf.2
    | fire t =>
      simp only [wfTrace, Bool.and_eq_true, decide_eq_true_eq] at hwf
      exact ih _
        (schedulerInv_delayedSaveFire W t s (fun _ => hwf.1.1.2) hinv) hwf.2

/-- C4: a mutation at a time whose distance from the last save reaches the
window `W` flushes immediately; otherwise, with no flush pending, a single
delayed flush is armed (waking exactly `W` after the last save); a mutation
arriving while a flush is pending leaves the scheduler state completely
unchanged (no reset or re-arming of the pending timer); a mutation always
either flushes now or leaves a flush pending (the final mutation is never
dropped); and along any well-formed trace consecutive flushes are at least
`W` apart (at most one flush per window). -/
theorem throttled_flush_behavior (W t : Nat) (s : SchedulerState) (es : List SchedulerEvent)
    (hlast : s.lastSaveTime ≤ t) (hinv : SchedulerInv W s)
    (hwf : wfTrace W s es = true) :
    (W ≤ t - s.lastSaveTime → scheduleSave W t s = saveToFileAt t s) ∧
    (t - s.lastSaveTime < W → s.pendingSave = false →
      scheduleSave W t s =
        { s with pendingSave := true,
                 pendingFireTime := t + (W - (t - s.lastSaveTime)) } ∧
      t + (W - (t - s.lastSaveTime)) = s.lastSaveTime + W) ∧
    (t - s.lastSaveTime < W → s.pendingSave = true → scheduleSave W t s = s) ∧
    ((scheduleSave W t s).pendingSave = true ∨
      (scheduleSave W t s).saves.head? = some t) ∧
    List.Chain' (fun a b => b + W ≤ a) (run W s es).saves := by
  refine ⟨?_, ?_, ?_, ?_, (schedulerInv_run W es s hinv hwf).1⟩
  · intro h
    unfold scheduleSave
    rw [if_pos h]
  · intro h hp
    unfold scheduleSave
    rw [if_neg (by omega), if_pos hp]
    exact ⟨rfl, by omega⟩
  · intro h hp
    unfold scheduleSave
    rw [if_neg (by omega), if_neg (by simp [hp])]
  · unfold scheduleSave
    split_ifs with h1 h2
    · exact Or.inr rfl
    · exact Or.inl rfl
    · exact Or.inl (by simpa using h2)

/-- Closed witness for C4: a concrete burst (a mutation at time 3 inside the
window of a scheduler last saved at 0, its armed timer firing at 10, with
`W = 10`) produces flushes at least one window apart. -/
theorem throttled_flush_behavior_witness :
    List.Chain' (fun a b => b + 10 ≤ a)
      (run 10 ⟨0, false, 0, []⟩
        [SchedulerEvent.mutate 3, SchedulerEvent.fire 10]).saves :=
  (throttled_flush_behavior 10 3 ⟨0, false, 0, []⟩
    [SchedulerEvent.mutate 3, SchedulerEvent.fire 10]
    (by decide) ⟨by simp, by decide, by simp⟩ (by decide)).2.2.2.2

/-- C3: during a flush the full mapping is written to the `.tmp` sibling of
the target path and then renamed over the target: in every intermediate
state the target file holds either its previous content or the complete
serialization of the mapping (never a partial write), the final state holds
exactly the complete serialization (with the temp file gone), the fully
written temp state occurs in the run, and the temp path is the target path
plus a `.tmp` suffix. -/
theorem save_to_file_atomic (d : LibraryData) (init : FsState) (fp : String) (s : FsState)
    (hs : s ∈ saveToFileStates d init) :
    (s.target = init.target ∨ s.target = some (serializeLib d)) ∧
    (saveToFileStates d init).getLast? =
      some { temp := none, target := some (serializeLib d) } ∧
    { init with temp := some (serializeLib d) } ∈ saveToFileStates d init ∧
    tempPath fp = fp ++ ".tmp" := by
  refine ⟨?_, ?_, ?_, rfl⟩
  · simp only [saveToFileStates, List.mem_append, List.mem_map, List.mem_singleton,
      List.mem_cons, List.not_mem_nil, or_false] at hs
    rcases hs with (hs | ⟨p, _, hp⟩) | hs
    · subst hs
      exact Or.inl rfl
    · subst hp
      exact Or.inl rfl
    · subst hs
      exact Or.inr rfl
  · show ([init] ++ ((writePrefixes (serializeLib d)).map
        (fun p => { init with temp := some p }) ++
        [({ temp := none, target := some (serializeLib d) } : FsState)])).getLast? = _
    rw [← List.append_assoc, List.getLast?_concat]
  · simp only [saveToFileStates, List.mem_append, List.mem_map, List.mem_singleton]
    refine Or.inl (Or.inr ⟨serializeLib d, ?_, rfl⟩)
    simp only [writePrefixes, List.mem_map, List.mem_range]
    refine ⟨(serializeLib d).length, Nat.lt_succ_self _, ?_⟩
    show String.mk ((serializeLib d).data.take (serializeLib d).data.length) = _
    rw [List.take_length]

/-- Closed witness for C3: the initial state of a concrete run. -/
theorem save_to_file_atomic_witness :
    (⟨none, none⟩ : FsState).target = (⟨none, none⟩ : FsState).target ∨
      (⟨none, none⟩ : FsState).target = some (serializeLib []) :=
  (save_to_file_atomic [] ⟨none, none⟩ "lib.json" ⟨none, none⟩
    (by simp [saveToFileStates])).1

/-- C5: a created or deleted notification is logged as a collection-level
event iff it is for a directory whose parent equals the watched root, as a
chapter-level event iff it is for a file whose grandparent equals the
watched root, and is otherwise dropped without any event. -/
theorem created_deleted_classification (root : FsPath) (is_directory : Bool)
    (src : FsPath) :
    ((∃ e, onCreated root is_directory src = some e ∧ isCollectionEvent e = true) ↔
      is_directory = true ∧ dirname src = root) ∧
    ((∃ e, onCreated root is_directory src = some e ∧ isChapterEvent e = true) ↔
      is_directory = false ∧ dirname (dirname src) = root) ∧
    (onCreated root is_directory src = none ↔
      ¬(is_directory = true ∧ dirname src = root) ∧
      ¬(is_directory = false ∧ dirname (dirname src) = root)) ∧
    ((∃ e, onDeleted root is_directory src = some e ∧ isCollectionEvent e = true) ↔
      is_directory = true ∧ dirname src = root) ∧
    ((∃ e, onDeleted root is_directory src = some e ∧ isChapterEvent e = true) ↔
      is_directory = false ∧ dirname (dirname src) = root) ∧
    (onDeleted root is_directory src = none ↔
      ¬(is_directory = true ∧ dirname src = root) ∧
      ¬(is_directory = false ∧ dirname (dirname src) = root)) := by
  cases is_directory
  · by_cases h : dirname (dirname src) = root <;>
      simp [onCreated, onDeleted, isCollectionEvent, isChapterEvent, h]
  · by_cases h : dirname src = root <;>
      simp [onCreated, onDeleted, isCollectionEvent, isChapterEvent, h]

/-- C6 counterexample: a moved notification for a directory where neither
the source nor the destination is directly under the watched root is still
recorded as an event, while the claim says it must be treated as irrelevant
with no event recorded. -/
theorem on_moved_counterexample :
    onMoved ["root"] true ["root", "a", "b"] ["root", "a", "c"] ≠ none ∧
    dirname ["root", "a", "b"] ≠ ["root"] ∧
    dirname ["root", "a", "c"] ≠ ["root"] := by
  decide

/-- C6 (amended): `on_moved` applies no filtering against the watched root
at all: every moved notification for a directory is recorded as a
directory-renamed event (with the basenames of the two sides), wherever the
two paths lie, and a moved notification for a file records nothing. -/
theorem on_moved_amended (root : FsPath) (is_directory : Bool) (src dest : FsPath) :
    onMoved root is_directory src dest =
      (if is_directory then
        some (WatcherEvent.directoryRenamed dest (basename src) (basename dest) src)
      else none) ∧
    ((onMoved root is_directory src dest).isSome ↔ is_directory = true) := by
  refine ⟨rfl, ?_⟩
  cases is_directory <;> simp [onMoved]

/-- C7: an existing backing file that parses becomes the initial mapping
and an absent file yields the empty store without raising, and a failure
matched by `except (json.JSONDecodeError, IOError)` is caught, reported, and
yields the empty store — but an existing file whose bytes are not valid
UTF-8 makes `json.load` raise `UnicodeDecodeError`, which that clause does
not catch, so the exception escapes `JSONDict.__init__`: construction does
not succeed in all three cases, contradicting the claim. -/
theorem load_from_file_behavior (d : LibraryData) :
    loadFromFile (BackingFile.valid d) = LoadOutcome.loaded d false ∧
    loadFromFile BackingFile.absent = LoadOutcome.loaded [] false ∧
    loadFromFile (BackingFile.failing PyExc.jsonDecodeError) =
      LoadOutcome.loaded [] true ∧
    loadFromFile (BackingFile.failing PyExc.ioError) =
      LoadOutcome.loaded [] true ∧
    loadFromFile (BackingFile.failing PyExc.unicodeDecodeError) =
      LoadOutcome.raised PyExc.unicodeDecodeError :=
  ⟨rfl, rfl, rfl, rfl, rfl⟩

/-- C8: when `os.makedirs` fails, the `except` block dereferences the still
unbound local `temp_path` and an `UnboundLocalError` escapes `_save_to_file`
to its caller — contradicting the claim that a flush never raises. The rest
of the claim holds: the in-memory mapping is never modified by any run, and
for failures occurring after `temp_path` is bound the exception is handled
and the temp file is removed. -/
theorem save_to_file_failure_behavior (env : SaveEnv) (t : Nat)
    (store : StoreState) (fs : FsState) :
    saveToFileRun ⟨false, env.writeOk, env.renameOk, env.removeOk⟩ t store fs =
      (FlushOutcome.escaped "UnboundLocalError: temp_path", store, fs) ∧
    (saveToFileRun env t store fs).2.1.data = store.data ∧
    saveToFileRun ⟨true, false, env.renameOk, true⟩ t store fs =
      (FlushOutcome.handled "IOError: write failed", store, { fs with temp := none }) ∧
    saveToFileRun ⟨true, true, false, true⟩ t store fs =
      (FlushOutcome.handled "OSError: rename failed", store, { fs with temp := none }) := by
  obtain ⟨ftmp, ftgt⟩ := fs
  refine ⟨rfl, ?_, ?_, rfl⟩
  · obtain ⟨mk, wr, rn, rm⟩ := env
    cases mk <;> cases wr <;> cases rn <;> cases rm <;>
      · show (saveToFileRun _ _ _ ⟨ftmp, ftgt⟩).2.1.data = store.data
        cases ftmp <;> rfl
  · cases ftmp <;> rfl

/-- Lookup success on an association list yields a member pair. -/
theorem mem_of_lookup_eq_some {k : String} {v : CollectionRecord} :
    ∀ {l : LibraryData}, List.lookup k l = some v → (k, v) ∈ l := by
  intro l
  induction l with
  | nil => intro h; simp [List.lookup] at h
  | cons p t ih =>
    intro h
    obtain ⟨a, b⟩ := p
    simp only [List.lookup] at h
    cases hk : (k == a) with
    | true =>
      rw [hk] at h
      simp only [Option.some.injEq] at h
      exact h ▸ (beq_iff_eq.mp hk ▸ List.mem_cons_self (a, b) t)
    | false =>
      rw [hk] at h
      exact List.mem_cons_of_mem _ (ih h)

/-- `setKey` preserves record consistency when the new record is
consistent. -/
theorem recordsConsistent_setKey (store : LibraryData) (k : String)
    (v : CollectionRecord) (hv : v.total_chapters = v.cbz_files.length)
    (h : RecordsConsistent store) : RecordsConsistent (setKey store k v) := by
  intro kv hkv
  unfold setKey at hkv
  split_ifs at hkv with hk
  · rw [List.mem_map] at hkv
    obtain ⟨kv0, hkv0, heq⟩ := hkv
    by_cases hkk : kv0.1 = k
    · rw [if_pos hkk] at heq
      rw [← heq]
      exact hv
    · rw [if_neg hkk] at heq
      exact heq ▸ h kv0 hkv0
  · rw [List.mem_append] at hkv
    rcases hkv with hkv | hkv
    · exact h kv hkv
    · simp only [List.mem_singleton] at hkv
      exact hkv ▸ hv

/-- `delKey` preserves record consistency. -/
theorem recordsConsistent_delKey (store : LibraryData) (k : String)
    (h : RecordsConsistent store) : RecordsConsistent (delKey store k) := by
  intro kv hkv
  exact h kv (List.mem_of_mem_filter hkv)

/-- The collection-level update preserves record consistency. -/
theorem recordsConsistent_updateCollection (store : LibraryData) (id path : String)
    (listing : Option (List String)) (now : String)
    (h : RecordsConsistent store) :
    RecordsConsistent (updateCollection store id path listing now) := by
  cases listing with
  | none => exact recordsConsistent_delKey store id h
  | some entries => exact recordsConsistent_setKey store id _ rfl h

/-- The rename migration preserves record consistency. -/
theorem recordsConsistent_renameCollection (store : LibraryData)
    (oldId newId newPath : String) (listing : Option (List String)) (now : String)
    (h : RecordsConsistent store) :
    RecordsConsistent (renameCollection store oldId newId newPath listing now) := by
  unfold renameCollection
  cases hl : List.lookup oldId store with
  | none => exact recordsConsistent_updateCollection store newId newPath listing now h
  | some r =>
    refine recordsConsistent_setKey _ newId _ ?_
      (recordsConsistent_delKey store oldId h)
    exact h (oldId, r) (mem_of_lookup_eq_some hl)

/-- Processing one classified notification preserves record consistency. -/
theorem recordsConsistent_processNotification (store : LibraryData)
    (n : LibraryNotification) (h : RecordsConsistent store) :
    RecordsConsistent (processNotification store n) := by
  cases n with
  | collectionUpdate id path listing now =>
      exact recordsConsistent_updateCollection store id path listing now h
  | collectionDeleted id => exact recordsConsistent_delKey store id h
  | collectionRenamed o nw p l now =>
      exact recordsConsistent_renameCollection store o nw p l now h

/-- Processing a sequence of classified notifications preserves record
consistency. -/
theorem recordsConsistent_processNotifications (ns : List LibraryNotification) :
    ∀ store : LibraryData, RecordsConsistent store →
      RecordsConsistent (processNotifications store ns) := by
  induction ns with
  | nil => exact fun _ h => h
  | cons n ns ih =>
    exact fun store h => ih _ (recordsConsistent_processNotification store n h)

/-- C9: after processing any sequence of classified notifications from a
consistent store, every collection record present in the store has
`total_chapters` equal to the number of entries of its chapter file list. -/
theorem total_chapters_consistent (store : LibraryData)
    (ns : List LibraryNotification) (hstore : RecordsConsistent store)
    (id : String) (r : CollectionRecord)
    (hr : List.lookup id (processNotifications store ns) = some r) :
    r.total_chapters = r.cbz_files.length :=
  recordsConsistent_processNotifications ns store hstore (id, r)
    (mem_of_lookup_eq_some hr)

/-- Closed witness for C9: creating collection Foo from a directory listing
with one archive file yields a record whose stored count matches its chapter
list. -/
theorem total_chapters_consistent_witness :
    (⟨"root/Foo", "t0", "t0", ["v1c1.cbz"], 1⟩ : CollectionRecord).total_chapters =
      (⟨"root/Foo", "t0", "t0", ["v1c1.cbz"], 1⟩ : CollectionRecord).cbz_files.length :=
  total_chapters_consistent []
    [LibraryNotification.collectionUpdate "Foo" "root/Foo"
      (some ["v1c1.cbz", "cover.jpg"]) "t0"]
    (fun kv hkv => by simp at hkv) "Foo"
    ⟨"root/Foo", "t0", "t0", ["v1c1.cbz"], 1⟩ (by decide)

/-- C10: after logging an event the log holds at most 100 entries — exactly
the most recent ones, in order (a suffix of the appended log, ending with
the new event) — and `get_events` with a positive limit returns at most
`limit` entries, the most recently logged ones in order (a suffix of the
log). -/
theorem event_log_bounded {α : Type} (events_log : List α) (e : α) (limit : Nat)
    (h : 0 < limit) :
    (logEvent events_log e).length ≤ 100 ∧
    (logEvent events_log e).length = min (events_log.length + 1) 100 ∧
    logEvent events_log e <:+ events_log ++ [e] ∧
    (logEvent events_log e).getLast? = some e ∧
    (getEvents (logEvent events_log e) limit).length ≤ limit ∧
    getEvents (logEvent events_log e) limit <:+ logEvent events_log e := by
  have hlen : (events_log ++ [e]).length = events_log.length + 1 := by
    simp
  simp only [logEvent]
  split_ifs with hgt
  · rw [hlen] at hgt
    refine ⟨?_, ?_, ?_, ?_, ?_, ?_⟩
    · rw [List.length_drop, hlen]
      omega
    · rw [List.length_drop, hlen]
      omega
    · exact List.drop_suffix _ _
    · rw [hlen, List.drop_append_of_le_length (by omega), List.getLast?_concat]
    · unfold getEvents
      rw [if_pos (by omega), List.length_drop]
      omega
    · unfold getEvents
      rw [if_pos (by omega)]
      exact List.drop_suffix _ _
  · rw [hlen] at hgt
    refine ⟨?_, ?_, List.suffix_refl _, List.getLast?_concat _, ?_, ?_⟩
    · rw [hlen]
      omega
    · rw [hlen]
      omega
    · unfold getEvents
      rw [if_pos (by omega), List.length_drop]
      omega
    · unfold getEvents
      rw [if_pos (by omega)]
      exact List.drop_suffix _ _

/-- Closed witness for C10 on a concrete log and limit. -/
theorem event_log_bounded_witness :
    (logEvent [0, 1, 2] 3).length ≤ 100 :=
  (event_log_bounded [0, 1, 2] 3 2 (by decide)).1

end Lamp
